import Mathlib

/-!
Verification development for the benchmark runner (bench/run_all.py).

The file embeds the metric extractor, the process runner, the orchestrator,
the reporter and the renderer of the runner as executable Lean definitions,
and proves theorems settling the specification claims about them.
Elapsed times are modeled exactly over the rationals.
-/

set_option maxRecDepth 8000

instance {ε α : Type} [DecidableEq ε] [DecidableEq α] :
    DecidableEq (Except ε α) := fun a b =>
  match a, b with
  | .ok x, .ok y =>
    if h : x = y then isTrue (by rw [h]) else isFalse fun hh => h (Except.ok.inj hh)
  | .error x, .error y =>
    if h : x = y then isTrue (by rw [h]) else isFalse fun hh => h (Except.error.inj hh)
  | .ok _, .error _ => isFalse fun h => Except.noConfusion h
  | .error _, .ok _ => isFalse fun h => Except.noConfusion h

/-- Python regex class \s restricted to its ASCII members, which is what the
timing pattern can meet in captured benchmark output. -/
def isPySpace (c : Char) : Bool :=
  c = ' ' || c = '\t' || c = '\n' || c = '\r' || c = '\x0b' || c = '\x0c'

/-- Character class [\d.] of the timing regex in run_benchmark. -/
def isDigitDot (c : Char) : Bool := c.isDigit || c = '.'

/-- Attempt to match the regex Time:\s*([\d.]+)\s*ms at the head of the
character list, returning the captured group. The character classes of
adjacent regex pieces are disjoint, so greedy matching without backtracking
is exact here. -/
def matchTimeAt : List Char → Option (List Char)
  | 'T' :: 'i' :: 'm' :: 'e' :: ':' :: rest =>
    let r1 := rest.dropWhile isPySpace
    let grp := r1.takeWhile isDigitDot
    let r2 := (r1.dropWhile isDigitDot).dropWhile isPySpace
    if grp.isEmpty then none
    else
      match r2 with
      | 'm' :: 's' :: _ => some grp
      | _ => none
  | _ => none

/-- Leftmost search for the timing regex, the semantics of re.search: the
match starting at the smallest index wins. -/
def searchTime : List Char → Option (List Char)
  | [] => none
  | c :: rest =>
    match matchTimeAt (c :: rest) with
    | some g => some g
    | none => searchTime rest

/-- Numeric value of a list of decimal digits. -/
def natOfDigits (l : List Char) : ℕ :=
  l.foldl (fun a c => 10 * a + (c.toNat - '0'.toNat)) 0

/-- Value of a digits-and-dots group accepted by float(): integer part plus
fractional part, modeled exactly over the rationals. -/
def ratOfGroup (g : List Char) : ℚ :=
  let ip := g.takeWhile (fun c => c ≠ '.')
  let fp := (g.dropWhile (fun c => c ≠ '.')).drop 1
  (natOfDigits ip : ℚ) + (natOfDigits fp : ℚ) / (10 : ℚ) ^ fp.length

/-- Python float() on a group matched by [\d.]+ : defined when the text has
at least one digit and at most one dot; on any other group float() raises
ValueError, modeled as none. -/
def pyFloat (g : List Char) : Option ℚ :=
  if g.any Char.isDigit ∧ (g.filter (fun c => c = '.')).length ≤ 1 then
    some (ratOfGroup g)
  else none

/-- Behavior of the subprocess.run call inside run_benchmark: the process
completed within the 120 s timeout (with an exit code and both captured
streams), the timeout expired, or an exception was raised while starting the
process or capturing its output. -/
inductive ProcEvent where
  | completed (exitCode : Int) (stdout stderr : String)
  | timedOut
  | raised (msg : String)
deriving DecidableEq

/-- A Python exception escaping the try body of run_benchmark. -/
inductive PyExc where
  | timeoutExpired
  | exc (msg : String)
deriving DecidableEq

/-- Body of the try block of run_benchmark: concatenate stdout and stderr,
search for the timing regex, convert the captured group with float().
A float() failure surfaces as an exception; a missing match returns None. -/
def run_benchmark_body : ProcEvent → Except PyExc (Option ℚ)
  | .timedOut => .error .timeoutExpired
  | .raised m => .error (.exc m)
  | .completed _ out err =>
    match searchTime (out ++ err).toList with
    | none => .ok none
    | some g =>
      match pyFloat g with
      | some q => .ok (some q)
      | none => .error (.exc "ValueError")

/-- run_benchmark: the except clauses map subprocess.TimeoutExpired and every
other Exception to None, so the interface yields a parsed float or None. -/
def run_benchmark (ev : ProcEvent) : Option ℚ :=
  match run_benchmark_body ev with
  | .ok o => o
  | .error _ => none

/-- The benchmark catalog BENCHMARKS: (file id, display name), in order. -/
def BENCHMARKS : List (String × String) :=
  [("01_fibonacci", "Fibonacci"), ("02_iterative", "Iterative Sum"),
   ("03_array_ops", "Array Ops"), ("04_string", "String"),
   ("05_class", "Class"), ("06_dict", "Dictionary"),
   ("07_higher_order", "Higher-Order"), ("08_primes", "Primes")]

/-- Classified outcome of one (benchmark, implementation) attempt as the
orchestrator observes it: a parsed time is stored in the results dict, a None
from run_benchmark prints FAILED and stores nothing, and a missing source
file is skipped silently without invoking run_benchmark at all. -/
inductive RunOutcome where
  | Measured (t : ℚ)
  | Failed
  | FileAbsent
deriving DecidableEq

/-- Per-pair classification performed by the body of the orchestration loop:
the file-existence check guards the run_benchmark invocation. -/
def attemptOutcome (fileExists : Bool) (ev : ProcEvent) : RunOutcome :=
  if fileExists then
    match run_benchmark ev with
    | some t => .Measured t
    | none => .Failed
  else .FileAbsent

/-- Environment of one orchestration run: which source files exist, and what
the launched subprocess does for each benchmark id. -/
structure World where
  saldExists : String → Bool
  pyExists : String → Bool
  saldRun : String → ProcEvent
  pyRun : String → ProcEvent

/-- One of the two per-implementation results dictionaries: display name to
measured milliseconds, in insertion order. -/
abbrev ResultsDict := List (String × ℚ)

/-- State accumulated by run_all_benchmarks: the two results dictionaries,
plus the per-benchmark console trace (one entry per catalog item recording
the classified sald and python outcomes that were printed). -/
structure RunState where
  sald : ResultsDict
  python : ResultsDict
  trace : List (String × RunOutcome × RunOutcome)
deriving DecidableEq

/-- The dictionary entry stored for one attempt: only a Measured outcome is
written into the results model. -/
def measuredEntry (name : String) : RunOutcome → ResultsDict
  | .Measured t => [(name, t)]
  | _ => []

/-- Body of the orchestration loop for one catalog entry: attempt sald, then
python, appending measured results and the trace entry. -/
def stepBench (w : World) (st : RunState) (b : String × String) : RunState :=
  let oS := attemptOutcome (w.saldExists b.1) (w.saldRun b.1)
  let oP := attemptOutcome (w.pyExists b.1) (w.pyRun b.1)
  { sald := st.sald ++ measuredEntry b.2 oS
    python := st.python ++ measuredEntry b.2 oP
    trace := st.trace ++ [(b.2, oS, oP)] }

/-- run_all_benchmarks: fold the loop body over the catalog, starting from
empty results. -/
def run_all_benchmarks (w : World) : RunState :=
  BENCHMARKS.foldl (stepBench w) ⟨[], [], []⟩

/-- Winner column of one summary row, with the exact speedup factor that the
source formats to one decimal place. -/
inductive Winner where
  | saldBy (factor : ℚ)
  | pythonBy (factor : ℚ)
  | tie
deriving DecidableEq

/-- One printed row of the summary table. -/
structure SummaryRow where
  name : String
  saldTime : ℚ
  pyTime : ℚ
  winner : Winner
deriving DecidableEq

/-- The whole summary table: rows in order plus the totals row. -/
structure Summary where
  rows : List SummaryRow
  totalSald : ℚ
  totalPython : ℚ
deriving DecidableEq

/-- Winner computation of one row. The branch conditions and divisions
mirror the source; a zero divisor raises ZeroDivisionError. -/
def winnerOf (st pt : ℚ) : Except String Winner :=
  if st < pt then
    if st = 0 then .error "ZeroDivisionError" else .ok (.saldBy (pt / st))
  else if pt < st then
    if pt = 0 then .error "ZeroDivisionError" else .ok (.pythonBy (st / pt))
  else .ok .tie

/-- The row loop of print_summary: iterate the sald dictionary keys, look the
python value up with default 0, accumulate both totals, compute the winner.
An exception aborts the whole summary. -/
def summaryLoop (python : ResultsDict) :
    ResultsDict → ℚ → ℚ → Except String (List SummaryRow × ℚ × ℚ)
  | [], ts, tp => .ok ([], ts, tp)
  | (name, st) :: rest, ts, tp =>
    let pt := (python.lookup name).getD 0
    match winnerOf st pt with
    | .error e => .error e
    | .ok w =>
      match summaryLoop python rest (ts + st) (tp + pt) with
      | .error e => .error e
      | .ok (rs, tS, tP) => .ok (⟨name, st, pt, w⟩ :: rs, tS, tP)

/-- print_summary: the summary table derived from the two results
dictionaries, or the uncaught exception text. -/
def print_summary (sald python : ResultsDict) : Except String Summary :=
  match summaryLoop python sald 0 0 with
  | .error e => .error e
  | .ok (rs, ts, tp) => .ok ⟨rs, ts, tp⟩

/-- One line pair of the ASCII chart: the two bar lengths in characters, the
two raw values, and the speedup annotation shown when both are positive. -/
structure ChartRow where
  name : String
  saldLen : ℤ
  pyLen : ℤ
  saldTime : ℚ
  pyTime : ℚ
  note : Option Winner
deriving DecidableEq

/-- Output shape of generate_ascii_chart: the no-results message, or the
chart with its scale maximum and its rows. -/
inductive AsciiChart where
  | noResults
  | chart (maxTime : ℚ) (rows : List ChartRow)
deriving DecidableEq

/-- The rows of an ASCII chart value. -/
def chartRowsOf : AsciiChart → List ChartRow
  | .noResults => []
  | .chart _ rows => rows

/-- max(d.values()) if d else 1, the scale fallback of the chart. -/
def dictMaxOr1 (d : ResultsDict) : ℚ :=
  match d.map (fun p => p.2) with
  | [] => 1
  | x :: xs => xs.foldl max x

/-- The chart scale: maximum over every value of both dictionaries, with 1
substituted for an empty dictionary. -/
def max_time (sald python : ResultsDict) : ℚ :=
  max (dictMaxOr1 sald) (dictMaxOr1 python)

/-- Bar length int((v / m) * 40): int() truncates, and the values here are
nonnegative in every reachable state, so this is the floor, not rounding. -/
def barLen (v m : ℚ) : ℤ := if 0 < m then ⌊v / m * 40⌋ else 0

/-- Speedup annotation under a chart row, printed when both values are
positive; the non-strict branch labels python on ties as in the source. -/
def chartNote (st pt : ℚ) : Option Winner :=
  if 0 < st ∧ 0 < pt then
    some (if st < pt then .saldBy (pt / st) else .pythonBy (st / pt))
  else none

/-- One chart row for a sald entry, looking the python value up with
default 0. -/
def mkChartRow (python : ResultsDict) (m : ℚ) (p : String × ℚ) : ChartRow :=
  let pt := (python.lookup p.1).getD 0
  ⟨p.1, barLen p.2 m, barLen pt m, p.2, pt, chartNote p.2 pt⟩

/-- generate_ascii_chart: the benchmarks iterated are the keys of the sald
dictionary; with no such key the no-results message is printed instead. -/
def generate_ascii_chart (sald python : ResultsDict) : AsciiChart :=
  match sald with
  | [] => .noResults
  | _ =>
    .chart (max_time sald python)
      (sald.map (mkChartRow python (max_time sald python)))

/-- Result of attempting one graphical rendering tier: the import or any
runtime error makes the tier fail and hands control to the next one. -/
inductive TierResult where
  | success
  | failure (msg : String)
deriving DecidableEq

/-- The three rendering tiers in their fixed order. -/
inductive Tier where
  | rich
  | simple
  | text
deriving DecidableEq

/-- Observable outcome of generate_graph: which tiers were attempted in
order, whether an image file was saved, and the ASCII chart if the text tier
ran. -/
structure GraphResult where
  attempts : List Tier
  saved : Bool
  textChart : Option AsciiChart
deriving DecidableEq

/-- generate_graph: try matplotlib; on ImportError or any other exception
try Pillow; on failure again, run the ASCII chart, which cannot fail. -/
def generate_graph (mpl pil : TierResult) (sald python : ResultsDict) :
    GraphResult :=
  match mpl with
  | .success => ⟨[.rich], true, none⟩
  | .failure _ =>
    match pil with
    | .success => ⟨[.rich, .simple], true, none⟩
    | .failure _ =>
      ⟨[.rich, .simple, .text], false, some (generate_ascii_chart sald python)⟩

/-- Modelled from the claim wording, for comparison with the source regex:
does the remaining text, after optional whitespace, start with the literal
unit ms. -/
def specTailMs (l : List Char) : Bool :=
  match l.dropWhile isPySpace with
  | 'm' :: 's' :: _ => true
  | _ => false

/-- Modelled from the claim wording: match, at the head of the list, the
pattern Time: whitespace decimal-number optional-whitespace ms, where a
decimal number is digits optionally followed by a dot and more digits. -/
def specMatchTimeAt : List Char → Option ℚ
  | 'T' :: 'i' :: 'm' :: 'e' :: ':' :: rest =>
    let ws := rest.takeWhile isPySpace
    let r1 := rest.dropWhile isPySpace
    if ws.isEmpty then none
    else
      let ds := r1.takeWhile Char.isDigit
      let r2 := r1.dropWhile Char.isDigit
      if ds.isEmpty then none
      else
        match r2 with
        | '.' :: r3 =>
          let fs := r3.takeWhile Char.isDigit
          let r4 := r3.dropWhile Char.isDigit
          if ¬fs.isEmpty ∧ specTailMs r4 then
            some (mkRat (natOfDigits (ds ++ fs)) (10 ^ fs.length))
          else if specTailMs r2 then some (natOfDigits ds : ℚ)
          else none
        | _ => if specTailMs r2 then some (natOfDigits ds : ℚ) else none
  | _ => none

/-- Modelled from the claim wording: value of the first occurrence of the
claimed pattern, scanning left to right. -/
def specSearchTime : List Char → Option ℚ
  | [] => none
  | c :: rest =>
    match specMatchTimeAt (c :: rest) with
    | some v => some v
    | none => specSearchTime rest

/-- Modelled from the claim wording: the extractor the claim describes. -/
def specExtract (s : String) : Option ℚ := specSearchTime s.toList

/-- Concrete environment used by witnesses: no sald source files exist, all
python files exist and print a five-millisecond timing line. -/
def w0 : World where
  saldExists := fun _ => false
  pyExists := fun _ => true
  saldRun := fun _ => .raised "unused"
  pyRun := fun _ => .completed 0 "Time: 5ms" ""

/-- The sald dictionary entries the orchestration loop appends over a
catalog segment. -/
def saldEntries (w : World) (cat : List (String × String)) : ResultsDict :=
  (cat.map (fun b =>
    measuredEntry b.2 (attemptOutcome (w.saldExists b.1) (w.saldRun b.1)))).flatten

/-- The python dictionary entries the orchestration loop appends over a
catalog segment. -/
def pyEntries (w : World) (cat : List (String × String)) : ResultsDict :=
  (cat.map (fun b =>
    measuredEntry b.2 (attemptOutcome (w.pyExists b.1) (w.pyRun b.1)))).flatten

/-- The console trace the orchestration loop produces over a catalog
segment: one classified pair of outcomes per catalog entry. -/
def traceOf (w : World) (cat : List (String × String)) :
    List (String × RunOutcome × RunOutcome) :=
  cat.map (fun b =>
    (b.2, attemptOutcome (w.saldExists b.1) (w.saldRun b.1),
      attemptOutcome (w.pyExists b.1) (w.pyRun b.1)))

lemma foldl_stepBench_sald (w : World) (cat : List (String × String)) (st : RunState) :
    (cat.foldl (stepBench w) st).sald = st.sald ++ saldEntries w cat := by
  induction cat generalizing st with
  | nil => simp [saldEntries]
  | cons b t ih =>
    simp only [List.foldl_cons, ih, stepBench, saldEntries, List.map_cons, List.flatten_cons,
      List.append_assoc]

lemma foldl_stepBench_python (w : World) (cat : List (String × String)) (st : RunState) :
    (cat.foldl (stepBench w) st).python = st.python ++ pyEntries w cat := by
  induction cat generalizing st with
  | nil => simp [pyEntries]
  | cons b t ih =>
    simp only [List.foldl_cons, ih, stepBench, pyEntries, List.map_cons, List.flatten_cons,
      List.append_assoc]

lemma foldl_stepBench_trace (w : World) (cat : List (String × String)) (st : RunState) :
    (cat.foldl (stepBench w) st).trace = st.trace ++ traceOf w cat := by
  induction cat generalizing st with
  | nil => simp [traceOf]
  | cons b t ih =>
    simp only [List.foldl_cons, ih, stepBench, traceOf, List.map_cons,
      List.append_assoc, List.singleton_append, List.cons_append, List.nil_append]

lemma run_all_sald_eq (w : World) :
    (run_all_benchmarks w).sald = saldEntries w BENCHMARKS := by
  simpa using foldl_stepBench_sald w BENCHMARKS ⟨[], [], []⟩

lemma run_all_python_eq (w : World) :
    (run_all_benchmarks w).python = pyEntries w BENCHMARKS := by
  simpa using foldl_stepBench_python w BENCHMARKS ⟨[], [], []⟩

lemma run_all_trace_eq (w : World) :
    (run_all_benchmarks w).trace = traceOf w BENCHMARKS := by
  simpa using foldl_stepBench_trace w BENCHMARKS ⟨[], [], []⟩

lemma lookup_eq_none_of_forall {α : Type} (l : List (String × α)) (k : String)
    (h : ∀ p ∈ l, p.1 ≠ k) : l.lookup k = none := by
  induction l with
  | nil => rfl
  | cons a t ih =>
    obtain ⟨n, v⟩ := a
    have hn : n ≠ k := h (n, v) (by simp)
    have hk : (k == n) = false := by
      simp only [beq_eq_false_iff_ne, ne_eq]
      exact fun e => hn e.symm
    simp only [List.lookup, hk]
    exact ih fun p hp => h p (by simp [hp])

lemma lookup_append_cons_ne {α : Type} (p1 p2 : List (String × α)) (n k : String)
    (v : α) (h : k ≠ n) :
    (p1 ++ (n, v) :: p2).lookup k = (p1 ++ p2).lookup k := by
  induction p1 with
  | nil =>
    have hk : (k == n) = false := by
      simp only [beq_eq_false_iff_ne, ne_eq]
      exact h
    simp [List.lookup, hk]
  | cons a t ih =>
    obtain ⟨m, u⟩ := a
    simp only [List.cons_append, List.lookup]
    cases hkm : (k == m) <;> simp [hkm, ih]

lemma searchTime_some_leftmost (s g : List Char) (h : searchTime s = some g) :
    ∃ k, matchTimeAt (s.drop k) = some g ∧
      ∀ j, j < k → matchTimeAt (s.drop j) = none := by
  induction s with
  | nil => simp [searchTime] at h
  | cons c rest ih =>
    cases hm : matchTimeAt (c :: rest) with
    | some g0 =>
      simp only [searchTime, hm, Option.some.injEq] at h
      subst h
      refine ⟨0, ?_, ?_⟩
      · rw [List.drop_zero, hm]
      · intro j hj; omega
    | none =>
      simp only [searchTime, hm] at h
      obtain ⟨k, hk, hb⟩ := ih h
      refine ⟨k + 1, by simpa using hk, ?_⟩
      intro j hj
      cases j with
      | zero => simpa using hm
      | succ j => simpa using hb j (by omega)

lemma searchTime_none_all (s : List Char) (h : searchTime s = none) :
    ∀ j, matchTimeAt (s.drop j) = none := by
  induction s with
  | nil => intro j; cases j <;> rfl
  | cons c rest ih =>
    intro j
    cases hm : matchTimeAt (c :: rest) with
    | some g0 => simp only [searchTime, hm] at h; cases h
    | none =>
      simp only [searchTime, hm] at h
      cases j with
      | zero => simpa using hm
      | succ j => simpa using ih h j

lemma run_benchmark_completed (c : Int) (o e : String) :
    run_benchmark (.completed c o e) = (searchTime (o ++ e).toList).bind pyFloat := by
  simp only [run_benchmark, run_benchmark_body]
  cases h : searchTime (o ++ e).toList with
  | none => simp
  | some g => cases hp : pyFloat g <;> simp [hp]

lemma summaryLoop_ok_spec (python : ResultsDict) :
    ∀ (sald : ResultsDict) (ts tp : ℚ) (rs : List SummaryRow) (tS tP : ℚ),
      summaryLoop python sald ts tp = .ok (rs, tS, tP) →
      rs.map (fun r => r.name) = sald.map (fun p => p.1) ∧
      (∀ r ∈ rs, r.pyTime = (python.lookup r.name).getD 0) ∧
      tS = ts + (sald.map (fun p => p.2)).sum ∧
      tP = tp + (sald.map (fun p => (python.lookup p.1).getD 0)).sum := by
  intro sald
  induction sald with
  | nil =>
    intro ts tp rs tS tP h
    simp only [summaryLoop, Except.ok.injEq, Prod.mk.injEq] at h
    obtain ⟨h1, h2, h3⟩ := h
    subst h1; subst h2; subst h3
    simp
  | cons p rest ih =>
    intro ts tp rs tS tP h
    obtain ⟨name, st⟩ := p
    cases hw : winnerOf st ((python.lookup name).getD 0) with
    | error e =>
      simp only [summaryLoop, hw] at h
      exact Except.noConfusion h
    | ok w =>
      cases hr : summaryLoop python rest (ts + st) (tp + (python.lookup name).getD 0) with
      | error e =>
        simp only [summaryLoop, hw, hr] at h
        exact Except.noConfusion h
      | ok trip =>
        obtain ⟨rs0, tS0, tP0⟩ := trip
        simp only [summaryLoop, hw, hr, Except.ok.injEq, Prod.mk.injEq] at h
        obtain ⟨h1, h2, h3⟩ := h
        subst h1; subst h2; subst h3
        obtain ⟨m1, m2, m3, m4⟩ := ih _ _ _ _ _ hr
        refine ⟨by simp [m1], ?_, ?_, ?_⟩
        · intro r hr2
          rcases List.mem_cons.mp hr2 with h | h
          · subst h; rfl
          · exact m2 r h
        · rw [m3]; simp [add_assoc]
        · rw [m4]; simp [add_assoc]

lemma summaryLoop_congr (python python2 : ResultsDict) :
    ∀ (sald : ResultsDict) (ts tp : ℚ),
      (∀ p ∈ sald, python.lookup p.1 = python2.lookup p.1) →
      summaryLoop python sald ts tp = summaryLoop python2 sald ts tp := by
  intro sald
  induction sald with
  | nil => intro ts tp _; rfl
  | cons p rest ih =>
    intro ts tp h
    obtain ⟨name, st⟩ := p
    have hh : python.lookup name = python2.lookup name := h (name, st) (by simp)
    simp only [summaryLoop, hh]
    rw [ih _ _ (fun q hq => h q (by simp [hq]))]

lemma catalog_snd_unique :
    ∀ p ∈ BENCHMARKS, ∀ q ∈ BENCHMARKS, p.2 = q.2 → p = q := by decide

lemma saldEntries_mem {w : World} {cat : List (String × String)} {p : String × ℚ}
    (hp : p ∈ saldEntries w cat) :
    ∃ b ∈ cat, b.2 = p.1 ∧
      attemptOutcome (w.saldExists b.1) (w.saldRun b.1) = .Measured p.2 := by
  simp only [saldEntries, List.mem_flatten, List.mem_map] at hp
  obtain ⟨l, ⟨b, hb, rfl⟩, hpl⟩ := hp
  cases ho : attemptOutcome (w.saldExists b.1) (w.saldRun b.1) with
  | Measured t =>
    rw [ho] at hpl
    simp only [measuredEntry, List.mem_singleton] at hpl
    subst hpl
    exact ⟨b, hb, rfl, by rw [ho]⟩
  | Failed => rw [ho] at hpl; simp [measuredEntry] at hpl
  | FileAbsent => rw [ho] at hpl; simp [measuredEntry] at hpl

lemma pyEntries_mem {w : World} {cat : List (String × String)} {p : String × ℚ}
    (hp : p ∈ pyEntries w cat) :
    ∃ b ∈ cat, b.2 = p.1 ∧
      attemptOutcome (w.pyExists b.1) (w.pyRun b.1) = .Measured p.2 := by
  simp only [pyEntries, List.mem_flatten, List.mem_map] at hp
  obtain ⟨l, ⟨b, hb, rfl⟩, hpl⟩ := hp
  cases ho : attemptOutcome (w.pyExists b.1) (w.pyRun b.1) with
  | Measured t =>
    rw [ho] at hpl
    simp only [measuredEntry, List.mem_singleton] at hpl
    subst hpl
    exact ⟨b, hb, rfl, by rw [ho]⟩
  | Failed => rw [ho] at hpl; simp [measuredEntry] at hpl
  | FileAbsent => rw [ho] at hpl; simp [measuredEntry] at hpl

/-- Claim C1 (code bug): the claim states that when either side of a summary
row has no Measured value, the row still renders with a sentinel and no
winner is computed. On results where sald measured Fibonacci at 10 ms and
python has no value at all, print_summary substitutes 0 for the python cell,
the winner branch compares 0 < 10 and divides 10 by the substituted 0:
ZeroDivisionError aborts the whole summary instead of rendering the row. -/
theorem C1_missing_value_crashes_summary :
    print_summary [("Fibonacci", 10)] [] = .error "ZeroDivisionError" := by
  with_unfolding_all decide

/-- Claim C2 counterexample: the three failure kinds are not distinct values
at the run_benchmark interface: a timeout, a completed run with no parsable
timing, and an execution error all return the very same value, None. -/
theorem C2_failures_collapse :
    run_benchmark ProcEvent.timedOut = none ∧
    run_benchmark (.completed 0 "no timing here" "") = none ∧
    run_benchmark (.raised "PermissionError") = none := by
  with_unfolding_all decide

/-- Claim C2 amended: run_benchmark distinguishes only success from failure:
it returns the extracted float on success, and the single collapsed value
None for the no-match, timeout and execution-error cases alike (an execution
error additionally prints the underlying message, which is not returned). -/
theorem C2_two_valued_interface (m : String) (c : Int) (o e : String) :
    run_benchmark ProcEvent.timedOut = none ∧
    run_benchmark (ProcEvent.raised m) = none ∧
    run_benchmark (ProcEvent.completed c o e) =
      (searchTime (o ++ e).toList).bind pyFloat :=
  ⟨rfl, rfl, run_benchmark_completed c o e⟩

/-- Claim C3 counterexample: Fibonacci is in the catalog and has a Measured
python value, yet with no sald value the summary has no row for it at all
and the text chart prints the no-results message: the summary does not
contain one row for every catalog name. -/
theorem C3_python_only_row_missing :
    ("01_fibonacci", "Fibonacci") ∈ BENCHMARKS ∧
    print_summary [] [("Fibonacci", 5)] = .ok ⟨[], 0, 0⟩ ∧
    generate_ascii_chart [] [("Fibonacci", 5)] = .noResults := by
  with_unfolding_all decide

/-- Claim C3 amended: the summary table and the text chart contain one row
for exactly the benchmarks with a Measured sald value, in order; for each
such row the python value is looked up independently with default 0, and a
benchmark Measured only under python is omitted from both. -/
theorem C3_rows_follow_sald_keys (sald python : ResultsDict) (s : Summary)
    (h : print_summary sald python = .ok s) :
    s.rows.map (fun r => r.name) = sald.map (fun p => p.1) ∧
    (∀ r ∈ s.rows, r.pyTime = (python.lookup r.name).getD 0) ∧
    (chartRowsOf (generate_ascii_chart sald python)).map (fun r => r.name)
      = sald.map (fun p => p.1) := by
  cases hl : summaryLoop python sald 0 0 with
  | error e =>
    simp only [print_summary, hl] at h
    exact Except.noConfusion h
  | ok trip =>
    obtain ⟨rs, ts, tp⟩ := trip
    simp only [print_summary, hl, Except.ok.injEq] at h
    subst h
    obtain ⟨m1, m2, _, _⟩ := summaryLoop_ok_spec python sald 0 0 rs ts tp hl
    refine ⟨m1, m2, ?_⟩
    cases sald with
    | nil => rfl
    | cons q rest =>
      simp [generate_ascii_chart, chartRowsOf, mkChartRow]

/-- Witness for the amended claim C3 at a concrete input. -/
theorem C3_rows_follow_sald_keys_witness :
    (Summary.mk [⟨"Fibonacci", 10, 20, .saldBy 2⟩] 10 20).rows.map (fun r => r.name)
      = [("Fibonacci", (10:ℚ))].map (fun p => p.1) ∧
    (∀ r ∈ (Summary.mk [⟨"Fibonacci", 10, 20, .saldBy 2⟩] 10 20).rows,
      r.pyTime = (([("Fibonacci", (20:ℚ))]).lookup r.name).getD 0) ∧
    (chartRowsOf (generate_ascii_chart [("Fibonacci", 10)] [("Fibonacci", 20)])).map
      (fun r => r.name) = [("Fibonacci", (10:ℚ))].map (fun p => p.1) :=
  C3_rows_follow_sald_keys [("Fibonacci", 10)] [("Fibonacci", 20)]
    ⟨[⟨"Fibonacci", 10, 20, .saldBy 2⟩], 10, 20⟩ (by with_unfolding_all decide)

/-- Claim C4: for a catalog benchmark whose source file is missing under an
implementation, the per-pair classification is FileAbsent and nothing else,
run_benchmark is never consulted for it (the classification is the same for
every possible process behavior), no value is recorded for it in that
results dictionary of that implementation, and the loop continues: the console
trace still covers the full catalog. -/
theorem C4_fileAbsent_skipped (w : World) (id name : String)
    (hmem : (id, name) ∈ BENCHMARKS) :
    (∀ ev, attemptOutcome false ev = RunOutcome.FileAbsent) ∧
    (w.saldExists id = false →
      (run_all_benchmarks w).sald.lookup name = none ∧
      ∃ po, (name, RunOutcome.FileAbsent, po) ∈ (run_all_benchmarks w).trace) ∧
    (w.pyExists id = false →
      (run_all_benchmarks w).python.lookup name = none ∧
      ∃ so, (name, so, RunOutcome.FileAbsent) ∈ (run_all_benchmarks w).trace) ∧
    (run_all_benchmarks w).trace.length = BENCHMARKS.length := by
  refine ⟨fun ev => rfl, ?_, ?_, ?_⟩
  · intro habs
    constructor
    · rw [run_all_sald_eq]
      apply lookup_eq_none_of_forall
      intro p hp hpk
      obtain ⟨b, hb, hbn, hmeas⟩ := saldEntries_mem hp
      have hbq : b = (id, name) :=
        catalog_snd_unique b hb (id, name) hmem (hbn.trans hpk)
      rw [hbq] at hmeas
      simp [habs, attemptOutcome] at hmeas
    · rw [run_all_trace_eq]
      refine ⟨attemptOutcome (w.pyExists id) (w.pyRun id), ?_⟩
      simp only [traceOf, List.mem_map]
      exact ⟨(id, name), hmem, by simp [habs, attemptOutcome]⟩
  · intro habs
    constructor
    · rw [run_all_python_eq]
      apply lookup_eq_none_of_forall
      intro p hp hpk
      obtain ⟨b, hb, hbn, hmeas⟩ := pyEntries_mem hp
      have hbq : b = (id, name) :=
        catalog_snd_unique b hb (id, name) hmem (hbn.trans hpk)
      rw [hbq] at hmeas
      simp [habs, attemptOutcome] at hmeas
    · rw [run_all_trace_eq]
      refine ⟨attemptOutcome (w.saldExists id) (w.saldRun id), ?_⟩
      simp only [traceOf, List.mem_map]
      exact ⟨(id, name), hmem, by simp [habs, attemptOutcome]⟩
  · rw [run_all_trace_eq]
    simp [traceOf]

/-- Witness for claim C4 in the concrete environment without sald files. -/
theorem C4_fileAbsent_skipped_witness :
    (∀ ev, attemptOutcome false ev = RunOutcome.FileAbsent) ∧
    (w0.saldExists "01_fibonacci" = false →
      (run_all_benchmarks w0).sald.lookup "Fibonacci" = none ∧
      ∃ po, ("Fibonacci", RunOutcome.FileAbsent, po) ∈ (run_all_benchmarks w0).trace) ∧
    (w0.pyExists "01_fibonacci" = false →
      (run_all_benchmarks w0).python.lookup "Fibonacci" = none ∧
      ∃ so, ("Fibonacci", so, RunOutcome.FileAbsent) ∈ (run_all_benchmarks w0).trace) ∧
    (run_all_benchmarks w0).trace.length = BENCHMARKS.length :=
  C4_fileAbsent_skipped w0 "01_fibonacci" "Fibonacci" (by decide)

/-- Claim C5 counterexample: on the output whose first regex match has the
group 1.2.3 (accepted by the character class of the source regex but not a
valid float) followed by a later well-formed timing line, the claimed
extractor returns the value 5 of the first claim-pattern occurrence, while
the source extraction fails: float() raises on the first regex match, and
run_benchmark returns None, never trying the later line. -/
theorem C5_malformed_first_match :
    specExtract "Time: 1.2.3 ms\nTime: 5 ms" = some 5 ∧
    run_benchmark (.completed 0 "Time: 1.2.3 ms\nTime: 5 ms" "") = none := by
  with_unfolding_all decide

/-- Claim C5 amended: extraction parses the frontmost match of the liberal
regex (unit group of digits and dots): when several timing lines occur the
first is used; when the string has no match the result is None; and when the
group of the first match is not a valid float, the attempt fails as a whole
without considering later occurrences, because the conversion error aborts
extraction. The leftmost-match property is stated explicitly. -/
theorem C5_first_match_semantics :
    run_benchmark (.completed 0 "Time: 1ms\nTime: 2ms" "") = some 1 ∧
    (∀ s g, searchTime s = some g →
      ∃ k, matchTimeAt (s.drop k) = some g ∧
        ∀ j, j < k → matchTimeAt (s.drop j) = none) ∧
    (∀ s, searchTime s = none → ∀ j, matchTimeAt (s.drop j) = none) ∧
    (∀ c o e, run_benchmark (.completed c o e) =
      (searchTime (o ++ e).toList).bind pyFloat) :=
  ⟨by with_unfolding_all decide, searchTime_some_leftmost, searchTime_none_all,
    run_benchmark_completed⟩

/-- Witness for the amended claim C5 at a concrete input. -/
theorem C5_first_match_semantics_witness :
    ∃ k, matchTimeAt (List.drop k ("Time: 1ms".toList)) = some ['1'] ∧
      ∀ j, j < k → matchTimeAt (List.drop j ("Time: 1ms".toList)) = none :=
  C5_first_match_semantics.2.1 ("Time: 1ms".toList) ['1'] (by with_unfolding_all decide)

/-- Claim C6: the renderer attempts tiers at most once each, in the fixed
order rich, simple, text; a success stops the chain and a failure hands
control to the next tier; the text tier is total in this model, and on an
empty results model it produces the no-results message. -/
theorem C6_renderer_tiers (mpl pil : TierResult) (sald python : ResultsDict)
    (m1 m2 : String) :
    ((generate_graph mpl pil sald python).attempts = [Tier.rich] ∨
     (generate_graph mpl pil sald python).attempts = [Tier.rich, Tier.simple] ∨
     (generate_graph mpl pil sald python).attempts =
       [Tier.rich, Tier.simple, Tier.text]) ∧
    (generate_graph mpl pil sald python).attempts.Nodup ∧
    generate_graph .success pil sald python = ⟨[Tier.rich], true, none⟩ ∧
    generate_graph (.failure m1) .success sald python =
      ⟨[Tier.rich, Tier.simple], true, none⟩ ∧
    generate_graph (.failure m1) (.failure m2) sald python =
      ⟨[Tier.rich, Tier.simple, Tier.text], false,
        some (generate_ascii_chart sald python)⟩ ∧
    generate_ascii_chart [] [] = AsciiChart.noResults := by
  refine ⟨?_, ?_, rfl, rfl, rfl, rfl⟩
  · cases mpl <;> cases pil <;> simp [generate_graph]
  · cases mpl <;> cases pil <;> simp [generate_graph]

/-- Claim C7 counterexample: Primes has a Measured python value of 7 but no
sald value, so the totals loop, which iterates only the sald keys, never
adds it: the python total is 20, not the 27 the claim requires when summing
every benchmark with a Measured python value. -/
theorem C7_python_only_excluded_from_totals :
    print_summary [("Fibonacci", 10)] [("Fibonacci", 20), ("Primes", 7)] =
      .ok ⟨[⟨"Fibonacci", 10, 20, .saldBy 2⟩], 10, 20⟩ ∧
    ([("Fibonacci", (20:ℚ)), ("Primes", 7)].map (fun p => p.2)).sum ≠ (20:ℚ) := by
  with_unfolding_all decide

/-- Claim C7 amended: the totals iterate the sald keys only. The sald total
is the sum of the sald Measured values; the python total sums, for each sald
key, the python value looked up with default 0 (numerically a skip for an
absent value); and a python entry whose benchmark has no sald value
contributes to neither total, leaving the whole summary unchanged. -/
theorem C7_totals_follow_sald_keys (sald p1 p2 : ResultsDict) (n : String)
    (v : ℚ) (hn : ∀ p ∈ sald, p.1 ≠ n) (s : Summary)
    (h : print_summary sald (p1 ++ p2) = .ok s) :
    print_summary sald (p1 ++ (n, v) :: p2) = print_summary sald (p1 ++ p2) ∧
    s.totalSald = (sald.map (fun p => p.2)).sum ∧
    s.totalPython = (sald.map (fun p => ((p1 ++ p2).lookup p.1).getD 0)).sum := by
  constructor
  · have hcong := summaryLoop_congr (p1 ++ (n, v) :: p2) (p1 ++ p2) sald 0 0
      (fun p hp => lookup_append_cons_ne p1 p2 n p.1 v (hn p hp))
    unfold print_summary
    rw [hcong]
  · cases hl : summaryLoop (p1 ++ p2) sald 0 0 with
    | error e =>
      simp only [print_summary, hl] at h
      exact Except.noConfusion h
    | ok trip =>
      obtain ⟨rs, ts, tp⟩ := trip
      simp only [print_summary, hl, Except.ok.injEq] at h
      subst h
      obtain ⟨_, _, m3, m4⟩ := summaryLoop_ok_spec (p1 ++ p2) sald 0 0 rs ts tp hl
      exact ⟨by rw [m3]; simp, by rw [m4]; simp⟩

/-- Witness for the amended claim C7 at a concrete input. -/
theorem C7_totals_follow_sald_keys_witness :
    print_summary [("A", 1)] ([] ++ ("B", 2) :: [("A", 3)]) =
      print_summary [("A", 1)] ([] ++ [("A", 3)]) ∧
    (Summary.mk [⟨"A", 1, 3, .saldBy 3⟩] 1 3).totalSald
      = ([("A", (1:ℚ))].map (fun p => p.2)).sum ∧
    (Summary.mk [⟨"A", 1, 3, .saldBy 3⟩] 1 3).totalPython
      = ([("A", (1:ℚ))].map (fun p =>
          ((([] : ResultsDict) ++ [("A", (3:ℚ))]).lookup p.1).getD 0)).sum :=
  C7_totals_follow_sald_keys [("A", 1)] [] [("A", 3)] "B" 2
    (by with_unfolding_all decide) ⟨[⟨"A", 1, 3, .saldBy 3⟩], 1, 3⟩
    (by with_unfolding_all decide)

/-- Claim C8 counterexample: with sald measuring X at 8 and python at 9 the
ratio times the fixed width is 320 divided by 9, about 35.56; the chart
truncates with int() and prints a bar of length 35, while rounding to the
nearest integer, as the claim states, gives 36. -/
theorem C8_bar_truncates_not_rounds :
    (chartRowsOf (generate_ascii_chart [("X", 8)] [("X", 9)])).map
      (fun r => r.saldLen) = [35] ∧
    round ((8:ℚ) / 9 * 40) = 36 := by
  with_unfolding_all decide

/-- Claim C8 amended: every bar length in the text chart is the truncation
(floor, for these nonnegative values) of value over the global maximum times
the fixed width 40, not the rounding to the nearest integer; the python bar
uses the value looked up with default 0. -/
theorem C8_bar_length_is_floor (sald python : ResultsDict) (name : String)
    (v : ℚ) (h : (name, v) ∈ sald) :
    ∃ r ∈ chartRowsOf (generate_ascii_chart sald python),
      r.name = name ∧ r.saldTime = v ∧
      r.saldLen = (if 0 < max_time sald python
        then ⌊v / max_time sald python * 40⌋ else 0) ∧
      r.pyLen = (if 0 < max_time sald python
        then ⌊((python.lookup name).getD 0) / max_time sald python * 40⌋ else 0) := by
  cases sald with
  | nil => simp at h
  | cons q rest =>
    refine ⟨mkChartRow python (max_time (q :: rest) python) (name, v), ?_, rfl, rfl,
      rfl, rfl⟩
    exact List.mem_map_of_mem _ h

/-- Witness for the amended claim C8 at a concrete input. -/
theorem C8_bar_length_is_floor_witness :
    ∃ r ∈ chartRowsOf (generate_ascii_chart [("X", (8:ℚ))] [("X", 9)]),
      r.name = "X" ∧ r.saldTime = 8 ∧
      r.saldLen = (if 0 < max_time [("X", 8)] [("X", 9)]
        then ⌊(8:ℚ) / max_time [("X", 8)] [("X", 9)] * 40⌋ else 0) ∧
      r.pyLen = (if 0 < max_time [("X", 8)] [("X", 9)]
        then ⌊(([("X", (9:ℚ))].lookup "X").getD 0) / max_time [("X", 8)] [("X", 9)] * 40⌋
        else 0) :=
  C8_bar_length_is_floor [("X", 8)] [("X", 9)] "X" 8 (by with_unfolding_all decide)

/-- Claim C9: for a process that exits within the timeout, the exit code is
never consulted: the outcome of run_benchmark is the same for every exit
code, the combined output is handed to the extraction, and the result is the
extracted value exactly when extraction succeeds on that output. -/
theorem C9_exit_code_ignored (c1 c2 : Int) (o e : String) :
    run_benchmark (.completed c1 o e) = run_benchmark (.completed c2 o e) ∧
    run_benchmark (.completed c1 o e) = (searchTime (o ++ e).toList).bind pyFloat :=
  ⟨(run_benchmark_completed c1 o e).trans (run_benchmark_completed c2 o e).symm,
    run_benchmark_completed c1 o e⟩

/-- Claim C10: run_benchmark is total at its interface: the timeout and
every exception raised inside the try block are caught and mapped to None,
every process behavior yields either None or some float, and consequently
the orchestration loop always processes the entire catalog, whatever the
processes do: its trace covers every catalog entry. -/
theorem C10_runner_total (m : String) (w : World) :
    run_benchmark ProcEvent.timedOut = none ∧
    run_benchmark (ProcEvent.raised m) = none ∧
    (∀ ev, run_benchmark ev = none ∨ ∃ t, run_benchmark ev = some t) ∧
    (run_all_benchmarks w).trace.length = BENCHMARKS.length := by
  refine ⟨rfl, rfl, ?_, ?_⟩
  · intro ev
    cases hrb : run_benchmark ev with
    | none => exact Or.inl rfl
    | some t => exact Or.inr ⟨t, rfl⟩
  · rw [run_all_trace_eq]
    simp [traceOf]
